import Mathlib

/-!
Shallow embedding of the douga video backend (main.go) for verification.

The program is a Go HTTP service.  We embed its core as pure Lean
functions:

* the `ConversionManager` (keyed caches of HLS conversions and
  thumbnails backed by temporary directories, plus the TTL eviction
  sweep) becomes explicit state passing over a `CM` record;
* the upload job pipeline (`uploadVideo` / `process` / `processJob` /
  `update`) becomes a function from an environment (the results of the
  external collaborators: identity resolution and the blob relay) to
  the list of job values stored into the registry;
* the HTTP handlers become functions from request parameters and an
  environment to a response value plus a list of observable effects.

External collaborators (the OS temp-file allocator, the HTTP client,
ffmpeg) are modelled as oracles passed in as arguments: for example
`os.MkdirTemp` is modelled by a caller-supplied directory name together
with the OS contract (the returned directory is fresh) appearing as an
explicit hypothesis where freshness matters.
-/

namespace Douga

/-! ## Association-list model of `sync.Map` -/

/-- Lookup in an association list; models `sync.Map.Load`. -/
def alookup {α : Type} (k : String) (m : List (String × α)) : Option α :=
  (m.find? (fun p => p.1 == k)).map (fun p => p.2)

/-- Store in an association list; models `sync.Map.Store` (the binding
for `k` is replaced). -/
def astore {α : Type} (k : String) (v : α) (m : List (String × α)) :
    List (String × α) :=
  (k, v) :: m.filter (fun p => p.1 != k)

/-! ## Path helpers mirroring Go `path/filepath` on clean slash paths -/

/-- Models Go `filepath.Base`: strip trailing slashes, take the last
path element; empty input gives `.`, an all-slash input gives `/`. -/
def goBase (s : String) : String :=
  if s = "" then "."
  else
    let l := s.data.reverse.dropWhile (fun c => c = '/')
    let b := l.takeWhile (fun c => c ≠ '/')
    if b = [] then "/" else String.mk b.reverse

/-- Walk the reversed character list of a path; return the extension
(from the last dot of the final element, dot included) if any, stopping
at a path separator.  Helper for `goExt`. -/
def goExtAux : List Char → List Char → Option (List Char)
  | [], _ => none
  | c :: rest, acc =>
    if c = '/' then none
    else if c = '.' then some ('.' :: acc)
    else goExtAux rest (c :: acc)

/-- Models Go `filepath.Ext`: the suffix of the final path element
starting at its last dot, or `""` when the final element has no dot. -/
def goExt (s : String) : String :=
  match goExtAux s.data.reverse [] with
  | none => ""
  | some l => String.mk l

/-- Models Go `filepath.Join` of a clean directory and a simple file
name. -/
def pathJoin (d f : String) : String := d ++ "/" ++ f

/-- Models Go `filepath.Dir` on clean paths: everything before the last
slash; `.` when there is no slash; `/` when the path is a root entry. -/
def pathDir (p : String) : String :=
  let r := p.data.reverse.dropWhile (fun c => c ≠ '/')
  match r with
  | [] => "."
  | _ :: rest => if rest = [] then "/" else String.mk rest.reverse

/-! ## Conversion manager data model (structs `Conversion`, `Thumbnail`,
`ConversionManager`) -/

/-- Go struct `Conversion`: one HLS cache slot.  `Error` is the Go
`error` field, `none` meaning nil. -/
structure Conversion where
  OutputDir : String
  LastAccessed : Nat
  Converting : Bool
  Error : Option String
deriving DecidableEq, Repr

/-- Go struct `Thumbnail`: one thumbnail cache slot. -/
structure Thumbnail where
  Path : String
  LastAccessed : Nat
  Generating : Bool
  Error : Option String
deriving DecidableEq, Repr

/-- State of the `ConversionManager` together with the relevant part of
the filesystem: `disk` is the set (list) of existing temporary
directories, `files` the set of (directory, file-name) pairs existing
inside them.  Timestamps are in minutes. -/
structure CM where
  conversions : List (String × Conversion)
  thumbnails : List (String × Thumbnail)
  disk : List String
  files : List (String × String)
deriving DecidableEq, Repr

/-- Cache key used by `getOrCreateConversion`: `fmt.Sprintf("%s/%s", did, cid)`. -/
def convKey (did cid : String) : String := did ++ "/" ++ cid

/-- Cache key used by `getOrCreateThumbnail`:
`fmt.Sprintf("thumb_%s_%s", did, cid)`. -/
def thumbKey (did cid : String) : String := "thumb_" ++ did ++ "_" ++ cid

/-- Go `getOrCreateConversion`.  Under the manager lock: on a cache hit
the existing entry's `LastAccessed` is refreshed and it is returned; on
a miss `os.MkdirTemp` allocates a fresh directory (modelled by the
oracle argument `mkdirResult`: `none` is a MkdirTemp failure, `some d`
a success returning directory `d`), a new entry is registered and
returned. -/
def getOrCreateConversion (cm : CM) (did cid : String) (now : Nat)
    (mkdirResult : Option String) : Except String (Conversion × CM) :=
  match alookup (convKey did cid) cm.conversions with
  | some conv =>
    .ok ({ conv with LastAccessed := now },
      { cm with conversions :=
          (astore (convKey did cid) ({ conv with LastAccessed := now })
            cm.conversions) })
  | none =>
    match mkdirResult with
    | none => .error "failed to create temp directory"
    | some tmpDir =>
      .ok (⟨tmpDir, now, false, none⟩,
        { cm with
          conversions := (astore (convKey did cid)
            (⟨tmpDir, now, false, none⟩ : Conversion) cm.conversions),
          disk := tmpDir :: cm.disk })

/-- Go `getOrCreateThumbnail`; same shape as `getOrCreateConversion`,
the entry's `Path` being `filepath.Join(tmpDir, "thumbnail.jpg")`. -/
def getOrCreateThumbnail (cm : CM) (did cid : String) (now : Nat)
    (mkdirResult : Option String) : Except String (Thumbnail × CM) :=
  match alookup (thumbKey did cid) cm.thumbnails with
  | some thumb =>
    .ok ({ thumb with LastAccessed := now },
      { cm with thumbnails :=
          (astore (thumbKey did cid) ({ thumb with LastAccessed := now })
            cm.thumbnails) })
  | none =>
    match mkdirResult with
    | none => .error "failed to create temp directory for thumbnail"
    | some tmpDir =>
      .ok (⟨pathJoin tmpDir "thumbnail.jpg", now, false, none⟩,
        { cm with
          thumbnails := (astore (thumbKey did cid)
            (⟨pathJoin tmpDir "thumbnail.jpg", now, false, none⟩ : Thumbnail)
            cm.thumbnails),
          disk := tmpDir :: cm.disk })

/-- TTL used by the cleanup loop: `30 * time.Minute`, in minutes. -/
def ttlMinutes : Nat := 30

/-- The age test of `cleanupRoutine`:
`now.Sub(entry.LastAccessed) > 30*time.Minute`.  Nat subtraction
truncates at zero exactly as a negative Go duration fails the `>`. -/
def expiredAt (now last : Nat) : Bool := decide (ttlMinutes < now - last)

/-- The backing directories `os.RemoveAll` deletes during one cleanup
pass: the output directory of every expired conversion and the parent
directory of every expired thumbnail. -/
def expiredDirs (cm : CM) (now : Nat) : List String :=
  ((cm.conversions.filter (fun p => expiredAt now p.2.LastAccessed)).map
    (fun p => p.2.OutputDir))
  ++ ((cm.thumbnails.filter (fun p => expiredAt now p.2.LastAccessed)).map
    (fun p => pathDir p.2.Path))

/-- One pass of the body of Go `cleanupRoutine` (the code run per tick
of the 5-minute ticker, under the manager lock): every conversion and
thumbnail entry older than the TTL is deleted from its table, and
`os.RemoveAll` deletes its backing directory (`conv.OutputDir`, resp.
`filepath.Dir(thumb.Path)`) with everything inside it. -/
def cleanupStep (cm : CM) (now : Nat) : CM :=
  { conversions :=
      cm.conversions.filter (fun p => !(expiredAt now p.2.LastAccessed)),
    thumbnails :=
      cm.thumbnails.filter (fun p => !(expiredAt now p.2.LastAccessed)),
    disk := cm.disk.filter (fun d => !((expiredDirs cm now).contains d)),
    files := cm.files.filter (fun f => !((expiredDirs cm now).contains f.1)) }

/-! ## Derivation workers (`downloadBlob`, `convertToHLS`,
`generateThumbnail`) -/

/-- Observable effects of a derivation worker: creating the scratch
temp file, issuing the HTTP GET for the source blob, running ffmpeg. -/
inductive DFx
  | createTemp (name : String)
  | httpGet (url : String)
  | ffmpeg
deriving DecidableEq, Repr

/-- Outcome of the network part of `downloadBlob`, as decided by the
environment. -/
inductive DlOutcome
  | getErr (msg : String)
  | badStatus (code : Nat)
  | copyErr (msg : String)
  | okDl
deriving DecidableEq, Repr

/-- Oracle for one `downloadBlob` call: the result of `os.CreateTemp`
(`none` = failure, `some name` = the fresh scratch file `name`), and
the outcome of the download itself. -/
structure DlEnv where
  createTempResult : Option String
  outcome : DlOutcome
deriving DecidableEq, Repr

/-- Go `downloadBlob`: creates a scratch temp file (`blob_*`), then
GETs `sourceURL` and copies the body into it.  Returns the scratch file
name on success.  `fs` is the set of scratch files on disk.  Note that
on every failure after `os.CreateTemp` succeeded, the scratch file is
left on disk (the function has no removal on its error paths). -/
def downloadBlob (fs : List String) (sourceURL : String) (env : DlEnv) :
    Except String String × List String × List DFx :=
  match env.createTempResult with
  | none => (.error "failed to create temp file", fs, [])
  | some tmpName =>
    let fs1 := tmpName :: fs
    match env.outcome with
    | .getErr m =>
      (.error ("failed to download blob: " ++ m), fs1,
        [.createTemp tmpName, .httpGet sourceURL])
    | .badStatus code =>
      (.error ("failed to download blob: HTTP " ++ toString code), fs1,
        [.createTemp tmpName, .httpGet sourceURL])
    | .copyErr m =>
      (.error ("failed to save blob: " ++ m), fs1,
        [.createTemp tmpName, .httpGet sourceURL])
    | .okDl => (.ok tmpName, fs1, [.createTemp tmpName, .httpGet sourceURL])

/-- Oracle for one conversion / thumbnail generation: the download
oracle plus the result of the ffmpeg invocation (`none` = exit 0,
`some msg` = non-zero exit with combined output `msg`). -/
structure ConvEnv where
  dl : DlEnv
  ffmpegErr : Option String
deriving DecidableEq, Repr

/-- Go `convertToHLS` acting on one `Conversion` entry.  If the entry's
`Converting` flag is already set it returns nil immediately (single
flight); otherwise it sets the flag, downloads the source blob,
runs ffmpeg into the entry's output directory, records any error on the
entry, removes the scratch file once the download has succeeded
(`defer os.Remove(tmpFile)`), and clears the flag on return.  Result:
(returned error, updated entry, scratch files on disk, effects). -/
def convertToHLS (appviewURL did cid : String) (conv : Conversion)
    (fs : List String) (env : ConvEnv) :
    Option String × Conversion × List String × List DFx :=
  if conv.Converting then (none, conv, fs, [])
  else
    let conv1 := { conv with Converting := true }
    let sourceURL := appviewURL ++ "/blob/" ++ did ++ "/" ++ cid
    match downloadBlob fs sourceURL env.dl with
    | (.error m, fs1, fx) =>
      let em := "failed to download blob: " ++ m
      (some em, { conv1 with Error := some em, Converting := false }, fs1, fx)
    | (.ok tmpFile, fs1, fx) =>
      match env.ffmpegErr with
      | some m =>
        let em := "ffmpeg error: " ++ m
        (some em, { conv1 with Error := some em, Converting := false },
          fs1.filter (fun f => f != tmpFile), fx ++ [.ffmpeg])
      | none =>
        (none, { conv1 with Converting := false },
          fs1.filter (fun f => f != tmpFile), fx ++ [.ffmpeg])

/-- Go `generateThumbnail` acting on one `Thumbnail` entry; identical
shape to `convertToHLS` with the `Generating` flag and a frame-extract
ffmpeg invocation writing `thumb.Path`. -/
def generateThumbnail (appviewURL did cid : String) (thumb : Thumbnail)
    (fs : List String) (env : ConvEnv) :
    Option String × Thumbnail × List String × List DFx :=
  if thumb.Generating then (none, thumb, fs, [])
  else
    let thumb1 := { thumb with Generating := true }
    let sourceURL := appviewURL ++ "/blob/" ++ did ++ "/" ++ cid
    match downloadBlob fs sourceURL env.dl with
    | (.error m, fs1, fx) =>
      let em := "failed to download blob for thumbnail: " ++ m
      (some em, { thumb1 with Error := some em, Generating := false }, fs1, fx)
    | (.ok tmpFile, fs1, fx) =>
      match env.ffmpegErr with
      | some m =>
        let em := "ffmpeg thumbnail error: " ++ m
        (some em, { thumb1 with Error := some em, Generating := false },
          fs1.filter (fun f => f != tmpFile), fx ++ [.ffmpeg])
      | none =>
        (none, { thumb1 with Generating := false },
          fs1.filter (fun f => f != tmpFile), fx ++ [.ffmpeg])

/-! ## Upload job pipeline (`Job`, `uploadVideo`, `process`,
`processJob`, `Job.ToBsky`, `getJobStatus`) -/

/-- Go struct `Job`.  `err` is the Go `error` field (`none` = nil),
`blob` the blob reference returned by the PDS on success. -/
structure Job where
  ID : String
  userDID : String
  state : String
  progress : Nat
  err : Option String
  blob : Option String
  token : String
  contentType : String
deriving DecidableEq, Repr

/-- The job value built by `uploadVideo` before it stores the job and
spawns the worker. -/
def mkJob (jobID did token contentType : String) : Job :=
  { ID := jobID, userDID := did, state := "processing", progress := 1,
    err := none, blob := none, token := token, contentType := contentType }

/-- Result of `Storage.fetchUser` (identity resolution via PLC). -/
inductive FetchResult
  | fetchErr (msg : String)
  | fetchOk (pdsUrl : String)
deriving DecidableEq, Repr

/-- Outcome of the blob-relay POST to the user's PDS inside
`processJob`. -/
inductive RelayOutcome
  | transportErr (msg : String)
  | readErr (status msg : String)
  | badStatus (status body : String)
  | unmarshalErr (msg : String)
  | relayOk (blobRef : String)
deriving DecidableEq, Repr

/-- Environment of one upload-worker run: what the identity resolver
and the PDS answer. -/
structure UploadEnv where
  fetch : FetchResult
  relay : RelayOutcome
deriving DecidableEq, Repr

/-- Observable external effects of the upload worker. -/
inductive UFx
  | resolve
  | relayAttempt (pdsUrl : String)
deriving DecidableEq, Repr

/-- Go `processJob`: resolves the user's PDS, relays the body to it,
and calls `s.update` along the way.  Returns the list of job values
stored by those `s.update` calls, the returned error (`none` = nil),
and the external effects.  Go passes `job` by value, so each stored
value is built from this function's own copy. -/
def processJobRun (job : Job) (env : UploadEnv) :
    List Job × Option String × List UFx :=
  match env.fetch with
  | .fetchErr m => ([], some ("failed to fetch user: " ++ m), [.resolve])
  | .fetchOk pdsUrl =>
    if pdsUrl = "" then
      ([], some ("user " ++ job.userDID ++ " has no PDS"), [.resolve])
    else
      let job1 := { job with progress := 10 }
      match env.relay with
      | .transportErr m =>
        ([job1], some ("upload error " ++ m), [.resolve, .relayAttempt pdsUrl])
      | .readErr status m =>
        ([job1], some ("upload error " ++ status ++ ", " ++ m),
          [.resolve, .relayAttempt pdsUrl])
      | .badStatus status body =>
        ([job1], some ("upload error " ++ status ++ ", " ++ body),
          [.resolve, .relayAttempt pdsUrl])
      | .unmarshalErr m =>
        ([job1], some ("failed to unmarshall upload result: " ++ m),
          [.resolve, .relayAttempt pdsUrl])
      | .relayOk blobRef =>
        let job2 :=
          { job1 with
            progress := 100, state := "JOB_STATE_COMPLETED",
            blob := some blobRef }
        ([job1, job2], none, [.resolve, .relayAttempt pdsUrl])

/-- Go `process`: runs `processJob` on its own by-value copy of `job`;
if it returned an error, stores `job` (the original snapshot, progress
still 1) with the error and state `JOB_STATE_FAILED`.  Returns all job
values stored during the run, in order, plus the external effects. -/
def processRun (job : Job) (env : UploadEnv) : List Job × List UFx :=
  match processJobRun job env with
  | (ups, none, fx) => (ups, fx)
  | (ups, some e, fx) =>
    (ups ++ [{ job with state := "JOB_STATE_FAILED", err := some e }], fx)

/-- The full sequence of job values stored in the registry under the
job's id: the initial store by `uploadVideo` followed by the worker's
stores. -/
def jobTrace (jobID did token contentType : String) (env : UploadEnv) :
    List Job :=
  mkJob jobID did token contentType ::
    (processRun (mkJob jobID did token contentType) env).1

/-- The registry (`s.jobs`) after the stores of `jobTrace` have been
applied in order. -/
def registryAfter (jobID did token contentType : String) (env : UploadEnv) :
    List (String × Job) :=
  (jobTrace jobID did token contentType env).foldl
    (fun acc j => astore j.ID j acc) []

/-- The wire job descriptor `bsky.VideoDefs_JobStatus` (the fields the
program sets). -/
structure JobStatus where
  jobId : String
  did : String
  state : String
  progress : Option Nat
  blob : Option String
  error : Option String
  message : Option String
deriving DecidableEq, Repr

/-- Go `Job.ToBsky`.  The Go function panics on a state outside the
three known ones, and dereferences the nil `j.err` in the failed case;
both crashes are modelled by `none`. -/
def toBsky (j : Job) : Option JobStatus :=
  if j.state = "processing" then
    some { jobId := j.ID, did := j.userDID, state := j.state,
           progress := some j.progress, blob := none, error := none,
           message := some "processing..." }
  else if j.state = "JOB_STATE_COMPLETED" then
    some { jobId := j.ID, did := j.userDID, state := j.state,
           progress := some j.progress, blob := j.blob, error := none,
           message := some "uploaded!" }
  else if j.state = "JOB_STATE_FAILED" then
    match j.err with
    | some e =>
      some { jobId := j.ID, did := j.userDID, state := j.state,
             progress := some j.progress, blob := none, error := some e,
             message := some e }
    | none => none
  else none

/-- Go `getJobStatus`: looks the job up by id (outer `none` = the 400
"invalid job id" response) and serializes it with `Job.ToBsky`. -/
def getJobStatus (jobs : List (String × Job)) (jobID : String) :
    Option (Option JobStatus) :=
  (alookup jobID jobs).map toBsky

/-- Response of `uploadVideo` as seen by the client. -/
inductive UploadResp
  | forbidden
  | internalErr
  | okStatus (st : Option JobStatus)
deriving DecidableEq, Repr

/-- Go `uploadVideo`: rejects with 403 when a non-empty allow-list does
not contain the request's `did` query parameter; rejects with 500 when
reading the body fails; otherwise stores a fresh job, spawns the worker
and returns the serialized job.  Result: (response, job stored into the
registry if any, whether a worker goroutine was spawned). -/
def uploadVideo (allowedDIDs : List String) (did jobID token contentType : String)
    (bodyReadOk : Bool) : UploadResp × Option Job × Bool :=
  if 0 < allowedDIDs.length ∧ ¬ allowedDIDs.contains did then
    (.forbidden, none, false)
  else if ¬ bodyReadOk then (.internalErr, none, false)
  else
    let job := mkJob jobID did token contentType
    (.okStatus (toBsky job), some job, true)

/-! ## Artifact-retrieval handlers (`getVideoOrThumbnail`,
`getThumbnail`) -/

/-- Response of an artifact-retrieval handler. -/
inductive HResp
  | badRequest (msg : String)
  | internalError (msg : String)
  | serveFile (path contentType : String)
deriving DecidableEq, Repr

/-- Observable effects of an artifact-retrieval handler: cache-entry
lookup/creation in the conversion manager, filesystem access
(`os.Stat`, `c.File`), derivation invocations. -/
inductive HFx
  | thumbGetOrCreate
  | convGetOrCreate
  | statFile (p : String)
  | generateThumb
  | convertHLS
  | serve (p : String)
deriving DecidableEq, Repr

/-- Oracle for one `getThumbnail` request: the result of
`getOrCreateThumbnail`, whether `os.Stat(thumb.Path)` finds the file,
and the result of `generateThumbnail` if invoked. -/
structure ThumbReqEnv where
  getOrCreate : Except String Thumbnail
  thumbExists : Bool
  genErr : Option String
deriving Repr

/-- Go `getThumbnail`: validates `did`/`cid`, looks up or creates the
cache entry, generates the thumbnail if its file is missing, then
serves it. -/
def getThumbnailReq (did cid : String) (env : ThumbReqEnv) :
    HResp × List HFx :=
  if did = "" then (.badRequest "did is missing", [])
  else if cid = "" then (.badRequest "cid is missing", [])
  else
    match env.getOrCreate with
    | .error e => (.internalError e, [.thumbGetOrCreate])
    | .ok thumb =>
      if !env.thumbExists then
        match env.genErr with
        | some e =>
          (.internalError e,
            [.thumbGetOrCreate, .statFile thumb.Path, .generateThumb])
        | none =>
          (.serveFile thumb.Path "image/jpeg",
            [.thumbGetOrCreate, .statFile thumb.Path, .generateThumb,
              .serve thumb.Path])
      else
        (.serveFile thumb.Path "image/jpeg",
          [.thumbGetOrCreate, .statFile thumb.Path, .serve thumb.Path])

/-- Oracle for one `getVideoOrThumbnail` request: the thumbnail-branch
oracle, the result of `getOrCreateConversion`, whether
`playlist.m3u8` already exists in the output directory, and the result
of `convertToHLS` if invoked. -/
structure WatchReqEnv where
  thumbEnv : ThumbReqEnv
  getOrCreate : Except String Conversion
  playlistExists : Bool
  convErr : Option String
deriving Repr

/-- Go `getVideoOrThumbnail`: validates `did`/`cid`, takes
`filepath.Base` of the `filepath` route parameter, dispatches
`thumbnail.jpg` to the thumbnail handler, rejects any other name that
is neither `playlist.m3u8` nor a `.ts` file, and otherwise serves from
the conversion cache (converting first if the playlist is absent). -/
def getVideoOrThumbnail (did cid fpathParam : String) (env : WatchReqEnv) :
    HResp × List HFx :=
  if did = "" then (.badRequest "did is missing", [])
  else if cid = "" then (.badRequest "cid is missing", [])
  else
    let filename := goBase fpathParam
    if filename = "thumbnail.jpg" then getThumbnailReq did cid env.thumbEnv
    else if filename ≠ "playlist.m3u8" ∧ goExt filename ≠ ".ts" then
      (.badRequest "invalid file request", [])
    else
      match env.getOrCreate with
      | .error e => (.internalError e, [.convGetOrCreate])
      | .ok conv =>
        let playlistPath := pathJoin conv.OutputDir "playlist.m3u8"
        let ctype :=
          if goExt filename = ".m3u8" then "application/vnd.apple.mpegurl"
          else "video/mp2t"
        if !env.playlistExists then
          match env.convErr with
          | some e =>
            (.internalError e,
              [.convGetOrCreate, .statFile playlistPath, .convertHLS])
          | none =>
            (.serveFile (pathJoin conv.OutputDir filename) ctype,
              [.convGetOrCreate, .statFile playlistPath, .convertHLS,
                .serve (pathJoin conv.OutputDir filename)])
        else
          (.serveFile (pathJoin conv.OutputDir filename) ctype,
            [.convGetOrCreate, .statFile playlistPath,
              .serve (pathJoin conv.OutputDir filename)])

/-! ## Helper lemmas -/

/-- A store immediately followed by a lookup of the same key finds the
stored value. -/
theorem alookup_astore_self {α : Type} (k : String) (v : α)
    (m : List (String × α)) : alookup k (astore k v m) = some v := by
  simp [alookup, astore]

/-- After a successful `getOrCreateConversion`, the table maps the key
to the returned entry. -/
theorem getOrCreateConversion_post (cm : CM) (did cid : String) (now : Nat)
    (mk : Option String) (c : Conversion) (cm' : CM)
    (h : getOrCreateConversion cm did cid now mk = .ok (c, cm')) :
    alookup (convKey did cid) cm'.conversions = some c := by
  unfold getOrCreateConversion at h
  rcases ha : alookup (convKey did cid) cm.conversions with _ | conv
  · rw [ha] at h
    rcases mk with _ | fd
    · simp at h
    · simp at h
      obtain ⟨hc, hcm⟩ := h
      rw [← hcm, ← hc]
      simp [alookup_astore_self]
  · rw [ha] at h
    simp at h
    obtain ⟨hc, hcm⟩ := h
    rw [← hcm, ← hc]
    simp [alookup_astore_self]

/-- After a successful `getOrCreateThumbnail`, the table maps the key
to the returned entry. -/
theorem getOrCreateThumbnail_post (cm : CM) (did cid : String) (now : Nat)
    (mk : Option String) (t : Thumbnail) (cm' : CM)
    (h : getOrCreateThumbnail cm did cid now mk = .ok (t, cm')) :
    alookup (thumbKey did cid) cm'.thumbnails = some t := by
  unfold getOrCreateThumbnail at h
  rcases ha : alookup (thumbKey did cid) cm.thumbnails with _ | thumb
  · rw [ha] at h
    rcases mk with _ | fd
    · simp at h
    · simp at h
      obtain ⟨ht, hcm⟩ := h
      rw [← hcm, ← ht]
      simp [alookup_astore_self]
  · rw [ha] at h
    simp at h
    obtain ⟨ht, hcm⟩ := h
    rw [← hcm, ← ht]
    simp [alookup_astore_self]

/-! ## Claim theorems -/

/-- C1: for every key (did, cid), `getOrCreateConversion` /
`getOrCreateThumbnail` return the existing entry with `LastAccessed`
refreshed to `now` and touch neither the disk nor any file when the key
is present; when it is absent they allocate exactly one fresh, empty
temporary directory (freshness and emptiness being the `os.MkdirTemp`
contract, taken as hypotheses on the oracle's answer), register the new
entry and return it; and two lock-serialized calls with the same key
observe the same backing-storage path. -/
theorem getOrCreate_cache_contract :
    (∀ (cm : CM) (did cid : String) (now : Nat) (mk : Option String)
      (conv : Conversion),
      alookup (convKey did cid) cm.conversions = some conv →
      getOrCreateConversion cm did cid now mk =
        .ok ({ conv with LastAccessed := now },
          { cm with
            conversions := (astore (convKey did cid)
              ({ conv with LastAccessed := now }) cm.conversions) })) ∧
    (∀ (cm : CM) (did cid : String) (now : Nat) (fd : String),
      alookup (convKey did cid) cm.conversions = none →
      fd ∉ cm.disk →
      (∀ f, (fd, f) ∉ cm.files) →
      getOrCreateConversion cm did cid now (some fd) =
        .ok (⟨fd, now, false, none⟩,
          { cm with
            conversions := (astore (convKey did cid)
              (⟨fd, now, false, none⟩ : Conversion) cm.conversions),
            disk := fd :: cm.disk }) ∧
      fd ∉ cm.disk ∧ (∀ f, (fd, f) ∉ cm.files)) ∧
    (∀ (cm : CM) (did cid : String) (n1 n2 : Nat) (m1 m2 : Option String)
      (c1 c2 : Conversion) (cm1 cm2 : CM),
      getOrCreateConversion cm did cid n1 m1 = .ok (c1, cm1) →
      getOrCreateConversion cm1 did cid n2 m2 = .ok (c2, cm2) →
      c2.OutputDir = c1.OutputDir) ∧
    (∀ (cm : CM) (did cid : String) (now : Nat) (mk : Option String)
      (thumb : Thumbnail),
      alookup (thumbKey did cid) cm.thumbnails = some thumb →
      getOrCreateThumbnail cm did cid now mk =
        .ok ({ thumb with LastAccessed := now },
          { cm with
            thumbnails := (astore (thumbKey did cid)
              ({ thumb with LastAccessed := now }) cm.thumbnails) })) ∧
    (∀ (cm : CM) (did cid : String) (now : Nat) (fd : String),
      alookup (thumbKey did cid) cm.thumbnails = none →
      fd ∉ cm.disk →
      (∀ f, (fd, f) ∉ cm.files) →
      getOrCreateThumbnail cm did cid now (some fd) =
        .ok (⟨pathJoin fd "thumbnail.jpg", now, false, none⟩,
          { cm with
            thumbnails := (astore (thumbKey did cid)
              (⟨pathJoin fd "thumbnail.jpg", now, false, none⟩ : Thumbnail)
              cm.thumbnails),
            disk := fd :: cm.disk }) ∧
      fd ∉ cm.disk ∧ (∀ f, (fd, f) ∉ cm.files)) ∧
    (∀ (cm : CM) (did cid : String) (n1 n2 : Nat) (m1 m2 : Option String)
      (t1 t2 : Thumbnail) (cm1 cm2 : CM),
      getOrCreateThumbnail cm did cid n1 m1 = .ok (t1, cm1) →
      getOrCreateThumbnail cm1 did cid n2 m2 = .ok (t2, cm2) →
      t2.Path = t1.Path) := by
  refine ⟨?_, ?_, ?_, ?_, ?_, ?_⟩
  · intro cm did cid now mk conv h
    simp [getOrCreateConversion, h]
  · intro cm did cid now fd h hfd hff
    refine ⟨?_, hfd, hff⟩
    simp [getOrCreateConversion, h]
  · intro cm did cid n1 n2 m1 m2 c1 c2 cm1 cm2 h1 h2
    have p1 := getOrCreateConversion_post cm did cid n1 m1 c1 cm1 h1
    unfold getOrCreateConversion at h2
    rw [p1] at h2
    simp at h2
    obtain ⟨hc2, _⟩ := h2
    rw [← hc2]
  · intro cm did cid now mk thumb h
    simp [getOrCreateThumbnail, h]
  · intro cm did cid now fd h hfd hff
    refine ⟨?_, hfd, hff⟩
    simp [getOrCreateThumbnail, h]
  · intro cm did cid n1 n2 m1 m2 t1 t2 cm1 cm2 h1 h2
    have p1 := getOrCreateThumbnail_post cm did cid n1 m1 t1 cm1 h1
    unfold getOrCreateThumbnail at h2
    rw [p1] at h2
    simp at h2
    obtain ⟨ht2, _⟩ := h2
    rw [← ht2]

/-- Witness for C1: on the empty manager, a lookup of an absent key
allocates the fresh directory supplied by the MkdirTemp oracle and
registers the entry. -/
theorem getOrCreate_cache_contract_witness :
    getOrCreateConversion ⟨[], [], [], []⟩ "d" "c" 5 (some "hls_0") =
      .ok (⟨"hls_0", 5, false, none⟩,
        ⟨[(convKey "d" "c", ⟨"hls_0", 5, false, none⟩)], [], ["hls_0"], []⟩) := by
  have h := (getOrCreate_cache_contract.2.1 ⟨[], [], [], []⟩ "d" "c" 5 "hls_0"
    rfl (by simp) (fun f => by simp)).1
  simpa [astore] using h

/-- C2: when an entry's in-progress flag (`Converting`, resp.
`Generating`) is already set, `convertToHLS` / `generateThumbnail`
return nil at once: no download, no ffmpeg invocation, no filesystem
change, and the entry's fields are untouched. -/
theorem derivation_single_flight_noop :
    (∀ (appviewURL did cid : String) (conv : Conversion) (fs : List String)
      (env : ConvEnv), conv.Converting = true →
      convertToHLS appviewURL did cid conv fs env = (none, conv, fs, [])) ∧
    (∀ (appviewURL did cid : String) (thumb : Thumbnail) (fs : List String)
      (env : ConvEnv), thumb.Generating = true →
      generateThumbnail appviewURL did cid thumb fs env =
        (none, thumb, fs, [])) := by
  constructor
  · intro appviewURL did cid conv fs env h
    simp [convertToHLS, h]
  · intro appviewURL did cid thumb fs env h
    simp [generateThumbnail, h]

/-- Witness for C2: a concrete in-progress conversion and thumbnail on
which the second invocation is a no-op. -/
theorem derivation_single_flight_noop_witness :
    convertToHLS "http://av" "d" "c" ⟨"out", 3, true, none⟩ ["f1"]
        ⟨⟨some "blob_1", .okDl⟩, none⟩ =
      (none, ⟨"out", 3, true, none⟩, ["f1"], []) ∧
    generateThumbnail "http://av" "d" "c" ⟨"out/thumbnail.jpg", 3, true, none⟩
        ["f1"] ⟨⟨some "blob_1", .okDl⟩, none⟩ =
      (none, ⟨"out/thumbnail.jpg", 3, true, none⟩, ["f1"], []) :=
  ⟨derivation_single_flight_noop.1 "http://av" "d" "c" ⟨"out", 3, true, none⟩
      ["f1"] ⟨⟨some "blob_1", .okDl⟩, none⟩ rfl,
    derivation_single_flight_noop.2 "http://av" "d" "c"
      ⟨"out/thumbnail.jpg", 3, true, none⟩ ["f1"]
      ⟨⟨some "blob_1", .okDl⟩, none⟩ rfl⟩

/-- C3 counterexample: when the upload to the PDS fails after the
storage endpoint was resolved, the registry sees progress 1, then 10,
then 1 again — `process` stores its own by-value snapshot of the job
(progress still 1) on failure — so the stored progress sequence is not
non-decreasing. -/
theorem job_progress_regression_cex :
    (jobTrace "j1" "did:plc:a" "tok" "video/mp4"
        ⟨.fetchOk "https://pds.example", .transportErr "connection refused"⟩).map
      (fun j => j.progress) = [1, 10, 1] ∧
    ¬ List.Pairwise (fun a b => a ≤ b) [1, 10, 1] := by
  constructor
  · rfl
  · intro h
    have h2 := (List.pairwise_cons.mp (List.pairwise_cons.mp h).2).1
    have h10 : (10 : Nat) ≤ 1 := h2 1 (by simp)
    omega

/-- C3 (amended): every job's stored sequence of registry updates moves
only forward through states — every update before the last is in state
`processing` and the last is terminal (`JOB_STATE_COMPLETED` or
`JOB_STATE_FAILED`), so no update ever follows a terminal one — but the
stored progress sequence is not always non-decreasing: it is `[1, 1]`
when the run fails before the storage endpoint is resolved,
`[1, 10, 100]` on success, and `[1, 10, 1]` when the relay fails after
resolution, because the failure handler stores the job-creation
snapshot whose progress is still 1. -/
theorem job_state_machine_amended (jobID did token ct : String)
    (env : UploadEnv) :
    ((jobTrace jobID did token ct env).dropLast.all
      (fun j => j.state == "processing")) = true ∧
    (∃ j, (jobTrace jobID did token ct env).getLast? = some j ∧
      (j.state = "JOB_STATE_COMPLETED" ∨ j.state = "JOB_STATE_FAILED")) ∧
    ((jobTrace jobID did token ct env).map (fun j => j.progress) = [1, 1] ∨
      (jobTrace jobID did token ct env).map (fun j => j.progress) = [1, 10, 1] ∨
      (jobTrace jobID did token ct env).map (fun j => j.progress) =
        [1, 10, 100]) := by
  obtain ⟨fetch, relay⟩ := env
  rcases fetch with m | pds
  · exact ⟨rfl, ⟨_, rfl, Or.inr rfl⟩, Or.inl rfl⟩
  · by_cases hp : pds = ""
    · subst hp
      exact ⟨rfl, ⟨_, rfl, Or.inr rfl⟩, Or.inl rfl⟩
    · rcases relay with m | ⟨st, m⟩ | ⟨st, body⟩ | m | blobRef <;>
        simp only [jobTrace, processRun, processJobRun, mkJob, if_neg hp]
      · exact ⟨rfl, ⟨_, rfl, Or.inr rfl⟩, Or.inr (Or.inl rfl)⟩
      · exact ⟨rfl, ⟨_, rfl, Or.inr rfl⟩, Or.inr (Or.inl rfl)⟩
      · exact ⟨rfl, ⟨_, rfl, Or.inr rfl⟩, Or.inr (Or.inl rfl)⟩
      · exact ⟨rfl, ⟨_, rfl, Or.inr rfl⟩, Or.inr (Or.inl rfl)⟩
      · exact ⟨rfl, ⟨_, rfl, Or.inl rfl⟩, Or.inr (Or.inr rfl)⟩

/-- C5 counterexample: the cleanup pass removes an entry whose
`Converting` flag is set and deletes its backing directory, as soon as
its `LastAccessed` is stale — the sweep does not consult the
in-progress flag. -/
theorem cleanup_ignores_converting_cex :
    (⟨"hls_busy", 0, true, none⟩ : Conversion).Converting = true ∧
    alookup "d/c"
      (cleanupStep ⟨[("d/c", ⟨"hls_busy", 0, true, none⟩)], [], ["hls_busy"], []⟩
        31).conversions = none ∧
    "hls_busy" ∉
      (cleanupStep ⟨[("d/c", ⟨"hls_busy", 0, true, none⟩)], [], ["hls_busy"], []⟩
        31).disk := by
  refine ⟨rfl, rfl, by decide⟩

/-- C5 (amended): the cleanup pass decides removal solely from the
entry's `LastAccessed` age — an entry survives the sweep exactly when
it is within the TTL, regardless of its `Converting` / `Generating`
flag (the in-progress flag gives no sweep protection). -/
theorem cleanup_depends_only_on_age (cm : CM) (now : Nat) :
    (∀ (k : String) (c : Conversion),
      ((k, c) ∈ (cleanupStep cm now).conversions ↔
        (k, c) ∈ cm.conversions ∧ expiredAt now c.LastAccessed = false)) ∧
    (∀ (k : String) (t : Thumbnail),
      ((k, t) ∈ (cleanupStep cm now).thumbnails ↔
        (k, t) ∈ cm.thumbnails ∧ expiredAt now t.LastAccessed = false)) := by
  constructor <;> intro k e <;>
    simp [cleanupStep, List.mem_filter, Bool.not_eq_true']

/-- C6 counterexample: the error retained on a job that failed for lack
of a storage endpoint is `"user <did> has no PDS"` with the DID
interpolated, not the literal `"user has no PDS"` the claim states. -/
theorem no_pds_error_message_cex :
    (jobTrace "j1" "did:plc:alice" "tok" "video/mp4"
        ⟨.fetchOk "", .relayOk "bafy"⟩).getLast? =
      some ⟨"j1", "did:plc:alice", "JOB_STATE_FAILED", 1,
        some "user did:plc:alice has no PDS", none, "tok", "video/mp4"⟩ ∧
    ("user did:plc:alice has no PDS" : String) ≠ "user has no PDS" :=
  ⟨rfl, by decide⟩

/-- C6 (amended): when identity resolution succeeds but yields an empty
PDS URL, the worker makes no relay attempt, the job is stored failed
with the human-readable error `"user " ++ did ++ " has no PDS"`, and a
status poll for the job id returns state `JOB_STATE_FAILED` carrying
that error. -/
theorem no_pds_fails_job_amended (jobID did token ct : String)
    (relay : RelayOutcome) :
    (processRun (mkJob jobID did token ct) ⟨.fetchOk "", relay⟩).2 =
      [UFx.resolve] ∧
    getJobStatus (registryAfter jobID did token ct ⟨.fetchOk "", relay⟩)
        jobID =
      some (some
        { jobId := jobID, did := did, state := "JOB_STATE_FAILED",
          progress := some 1, blob := none,
          error := some ("user " ++ did ++ " has no PDS"),
          message := some ("user " ++ did ++ " has no PDS") }) := by
  constructor
  · rfl
  · simp [getJobStatus, registryAfter, jobTrace, processRun, processJobRun,
      mkJob, astore, alookup, toBsky]

/-- C7 (evaluating the code at the failing input): when the download of
the source blob fails — here with HTTP 500 — after `os.CreateTemp` has
already created the scratch file, `convertToHLS` returns with the
scratch file still on disk: `downloadBlob` has no removal on its error
paths and the `defer os.Remove(tmpFile)` is only registered after a
successful download.  The scratch file `blob_1` was not on disk before
the call and remains on disk after it. -/
theorem download_failure_leaks_scratch_file :
    (convertToHLS "http://appview" "did:plc:a" "bafy"
        ⟨"outdir", 0, false, none⟩ []
        ⟨⟨some "blob_1", .badStatus 500⟩, none⟩).2.2.1 = ["blob_1"] ∧
    ("blob_1" : String) ∉ ([] : List String) :=
  ⟨rfl, by simp⟩

/-- Recognizer for the 400 rejection responses of the artifact
handlers. -/
def isBadRequest : HResp → Bool
  | .badRequest _ => true
  | _ => false

/-- C8: any artifact-retrieval request whose filename (after
`filepath.Base`) is neither `thumbnail.jpg` nor `playlist.m3u8` and
does not carry the `.ts` extension is answered with a 400 rejection and
causes no effect at all — no filesystem access and no cache-entry
creation; in particular `../secret` (whose base is `secret`) is
rejected. -/
theorem invalid_filename_rejected_early (did cid fpathParam : String)
    (env : WatchReqEnv)
    (h1 : goBase fpathParam ≠ "thumbnail.jpg")
    (h2 : goBase fpathParam ≠ "playlist.m3u8")
    (h3 : goExt (goBase fpathParam) ≠ ".ts") :
    (getVideoOrThumbnail did cid fpathParam env).2 = [] ∧
    isBadRequest (getVideoOrThumbnail did cid fpathParam env).1 = true := by
  by_cases hd : did = ""
  · simp [getVideoOrThumbnail, isBadRequest, hd]
  · by_cases hc : cid = ""
    · simp [getVideoOrThumbnail, isBadRequest, hd, hc]
    · simp [getVideoOrThumbnail, isBadRequest, hd, hc, h1, h2, h3]

/-- Witness for C8: the request for `../secret` is rejected with no
effects. -/
theorem invalid_filename_rejected_early_witness :
    (getVideoOrThumbnail "did:plc:a" "bafy" "../secret"
        ⟨⟨.error "e", false, none⟩, .error "e", false, none⟩).2 = [] ∧
    isBadRequest (getVideoOrThumbnail "did:plc:a" "bafy" "../secret"
        ⟨⟨.error "e", false, none⟩, .error "e", false, none⟩).1 = true :=
  invalid_filename_rejected_early "did:plc:a" "bafy" "../secret"
    ⟨⟨.error "e", false, none⟩, .error "e", false, none⟩
    (by decide) (by decide) (by decide)

/-- C9: every job value ever stored in the registry is in one of the
three known states, a failed job always carries a non-nil error, and
consequently `Job.ToBsky` never reaches its panic branch or its nil
`j.err` dereference on a stored job — serializing a status response
never crashes. -/
theorem stored_jobs_serializable (jobID did token ct : String)
    (env : UploadEnv) (j : Job)
    (h : j ∈ jobTrace jobID did token ct env) :
    (j.state = "processing" ∨ j.state = "JOB_STATE_COMPLETED" ∨
      j.state = "JOB_STATE_FAILED") ∧
    (j.state = "JOB_STATE_FAILED" → j.err.isSome = true) ∧
    (toBsky j).isSome = true := by
  obtain ⟨fetch, relay⟩ := env
  rcases fetch with m | pds
  · simp [jobTrace, processRun, processJobRun, mkJob] at h
    rcases h with h | h <;> subst h <;> simp [toBsky, mkJob]
  · by_cases hp : pds = ""
    · subst hp
      simp [jobTrace, processRun, processJobRun, mkJob] at h
      rcases h with h | h <;> subst h <;> simp [toBsky, mkJob]
    · rcases relay with m | ⟨st, m⟩ | ⟨st, body⟩ | m | blobRef <;>
        simp only [jobTrace, processRun, processJobRun, mkJob,
          if_neg hp] at h <;>
        simp at h <;>
        rcases h with h | h | h <;> subst h <;> simp [toBsky, mkJob]

/-- Witness for C9: the initial stored job of a concrete run is
serializable. -/
theorem stored_jobs_serializable_witness :
    ((mkJob "j1" "d" "t" "v").state = "processing" ∨
      (mkJob "j1" "d" "t" "v").state = "JOB_STATE_COMPLETED" ∨
      (mkJob "j1" "d" "t" "v").state = "JOB_STATE_FAILED") ∧
    ((mkJob "j1" "d" "t" "v").state = "JOB_STATE_FAILED" →
      (mkJob "j1" "d" "t" "v").err.isSome = true) ∧
    (toBsky (mkJob "j1" "d" "t" "v")).isSome = true :=
  stored_jobs_serializable "j1" "d" "t" "v" ⟨.fetchErr "nope", .relayOk "b"⟩
    (mkJob "j1" "d" "t" "v") (by simp [jobTrace])

/-- C10: with a non-empty allow-list that does not contain the upload
request's `did` query parameter, `uploadVideo` answers 403 Forbidden,
stores no job and spawns no worker. -/
theorem allowlist_gates_upload (allowed : List String)
    (did jobID token ct : String) (bodyOk : Bool)
    (hne : allowed ≠ []) (hnm : did ∉ allowed) :
    uploadVideo allowed did jobID token ct bodyOk =
      (.forbidden, none, false) := by
  have h1 : 0 < allowed.length := by
    cases allowed with
    | nil => exact absurd rfl hne
    | cons a l => simp
  have h2 : ¬ (allowed.contains did = true) := by
    simpa [List.contains, List.elem_iff] using hnm
  simp [uploadVideo, h1, h2, hnm]

/-- Witness for C10: a concrete disallowed DID is rejected. -/
theorem allowlist_gates_upload_witness :
    uploadVideo ["did:plc:alice"] "did:plc:bob" "j1" "tok" "video/mp4" true =
      (.forbidden, none, false) :=
  allowlist_gates_upload ["did:plc:alice"] "did:plc:bob" "j1" "tok"
    "video/mp4" true (by decide) (by decide)

/-- Two bindings with the same key in an association list with
no-duplicate keys are equal. -/
theorem key_inj {α : Type} {l : List (String × α)}
    (hnd : (l.map Prod.fst).Nodup) {k : String} {a b : α}
    (ha : (k, a) ∈ l) (hb : (k, b) ∈ l) : a = b := by
  induction l with
  | nil => cases ha
  | cons p rest ih =>
    rw [List.map_cons, List.nodup_cons] at hnd
    obtain ⟨hp, hrest⟩ := hnd
    rcases List.mem_cons.mp ha with ha1 | ha1 <;>
      rcases List.mem_cons.mp hb with hb1 | hb1
    · have h := ha1.trans hb1.symm
      exact congrArg Prod.snd h
    · exfalso
      apply hp
      rw [← ha1]
      exact List.mem_map.mpr ⟨(k, b), hb1, rfl⟩
    · exfalso
      apply hp
      rw [← hb1]
      exact List.mem_map.mpr ⟨(k, a), ha1, rfl⟩
    · exact ih hrest ha1 hb1

/-- In an association list with no-duplicate keys, `find?` on a present
key returns exactly that binding. -/
theorem find_key_of_mem {α : Type} {l : List (String × α)}
    (hnd : (l.map Prod.fst).Nodup) {k : String} {a : α}
    (hm : (k, a) ∈ l) : l.find? (fun p => p.1 == k) = some (k, a) := by
  induction l with
  | nil => cases hm
  | cons p rest ih =>
    rw [List.map_cons, List.nodup_cons] at hnd
    obtain ⟨hp, hrest⟩ := hnd
    by_cases hpk : p.1 = k
    · have hpa : p = (k, a) := by
        rcases List.mem_cons.mp hm with h | h
        · exact h.symm
        · exfalso
          apply hp
          rw [hpk]
          exact List.mem_map.mpr ⟨(k, a), h, rfl⟩
      have hppos : (p.1 == k) = true := by simp [hpk]
      simp only [List.find?, hppos]
      rw [hpa]
    · have hpneg : (p.1 == k) = false := by simp [hpk]
      simp only [List.find?, hpneg]
      apply ih hrest
      rcases List.mem_cons.mp hm with h | h
      · exact absurd (congrArg Prod.fst h.symm) hpk
      · exact h

/-- C4: after one cleanup pass at time `now` over a well-formed manager
state (no duplicate keys; every entry's backing directory on disk;
backing directories pairwise distinct across all entries), every
conversion and thumbnail entry last accessed more than the 30-minute
TTL before `now` is gone from its table and its backing directory is
gone from disk, while every entry accessed within the TTL is still
present with its backing directory intact. -/
theorem cleanup_ttl_eviction (cm : CM) (now : Nat)
    (hndC : (cm.conversions.map Prod.fst).Nodup)
    (hndT : (cm.thumbnails.map Prod.fst).Nodup)
    (hdiskC : ∀ p ∈ cm.conversions, p.2.OutputDir ∈ cm.disk)
    (hdiskT : ∀ p ∈ cm.thumbnails, pathDir p.2.Path ∈ cm.disk)
    (hinjC : ∀ p ∈ cm.conversions, ∀ q ∈ cm.conversions,
      p.2.OutputDir = q.2.OutputDir → p = q)
    (hinjT : ∀ p ∈ cm.thumbnails, ∀ q ∈ cm.thumbnails,
      pathDir p.2.Path = pathDir q.2.Path → p = q)
    (hcross : ∀ p ∈ cm.conversions, ∀ q ∈ cm.thumbnails,
      p.2.OutputDir ≠ pathDir q.2.Path) :
    (∀ (k : String) (c : Conversion), (k, c) ∈ cm.conversions →
      (expiredAt now c.LastAccessed = true →
        alookup k (cleanupStep cm now).conversions = none ∧
        c.OutputDir ∉ (cleanupStep cm now).disk) ∧
      (expiredAt now c.LastAccessed = false →
        alookup k (cleanupStep cm now).conversions = some c ∧
        c.OutputDir ∈ (cleanupStep cm now).disk)) ∧
    (∀ (k : String) (t : Thumbnail), (k, t) ∈ cm.thumbnails →
      (expiredAt now t.LastAccessed = true →
        alookup k (cleanupStep cm now).thumbnails = none ∧
        pathDir t.Path ∉ (cleanupStep cm now).disk) ∧
      (expiredAt now t.LastAccessed = false →
        alookup k (cleanupStep cm now).thumbnails = some t ∧
        pathDir t.Path ∈ (cleanupStep cm now).disk)) := by
  have hconv_eq : (cleanupStep cm now).conversions =
      cm.conversions.filter (fun p => !(expiredAt now p.2.LastAccessed)) := rfl
  have hthumb_eq : (cleanupStep cm now).thumbnails =
      cm.thumbnails.filter (fun p => !(expiredAt now p.2.LastAccessed)) := rfl
  have hdisk_eq : (cleanupStep cm now).disk =
      cm.disk.filter (fun d => !((expiredDirs cm now).contains d)) := rfl
  constructor
  · intro k c hm
    constructor
    · intro hexp
      constructor
      · have hfind : ((cleanupStep cm now).conversions.find?
            (fun p => p.1 == k)) = none := by
          apply List.find?_eq_none.mpr
          intro p hp hbeq
          rw [hconv_eq] at hp
          obtain ⟨hpl, hkeep⟩ := List.mem_filter.mp hp
          have hpk : p.1 = k := by simpa using hbeq
          have hpmem : (k, p.2) ∈ cm.conversions := by
            rw [← hpk]
            exact hpl
          have hpc : p.2 = c := key_inj hndC hpmem hm
          rw [hpc, hexp] at hkeep
          simp at hkeep
        simp [alookup, hfind]
      · intro hmem
        rw [hdisk_eq] at hmem
        obtain ⟨_, hkeep⟩ := List.mem_filter.mp hmem
        have hin : c.OutputDir ∈ expiredDirs cm now :=
          List.mem_append_left _
            (List.mem_map.mpr ⟨(k, c), List.mem_filter.mpr ⟨hm, hexp⟩, rfl⟩)
        simp at hkeep
        exact hkeep hin
    · intro hfresh
      constructor
      · have hnd2 : (((cleanupStep cm now).conversions).map Prod.fst).Nodup := by
          rw [hconv_eq]
          exact hndC.sublist ((List.filter_sublist _).map Prod.fst)
        have hmem2 : (k, c) ∈ (cleanupStep cm now).conversions := by
          rw [hconv_eq]
          exact List.mem_filter.mpr ⟨hm, by simp [hfresh]⟩
        have hfind := find_key_of_mem hnd2 hmem2
        simp [alookup, hfind]
      · rw [hdisk_eq]
        apply List.mem_filter.mpr
        refine ⟨hdiskC (k, c) hm, ?_⟩
        have hnotin : c.OutputDir ∉ expiredDirs cm now := by
          intro hin
          rcases List.mem_append.mp hin with hin1 | hin2
          · obtain ⟨p, hpmem, hpdir⟩ := List.mem_map.mp hin1
            obtain ⟨hpl, hpexp⟩ := List.mem_filter.mp hpmem
            have hpq : p = (k, c) := hinjC p hpl (k, c) hm hpdir
            have h2 : p.2 = c := congrArg Prod.snd hpq
            rw [h2, hfresh] at hpexp
            exact absurd hpexp Bool.false_ne_true
          · obtain ⟨q, hqmem, hqdir⟩ := List.mem_map.mp hin2
            obtain ⟨hql, _⟩ := List.mem_filter.mp hqmem
            exact hcross (k, c) hm q hql hqdir.symm
        simp [hnotin]
  · intro k t hm
    constructor
    · intro hexp
      constructor
      · have hfind : ((cleanupStep cm now).thumbnails.find?
            (fun p => p.1 == k)) = none := by
          apply List.find?_eq_none.mpr
          intro p hp hbeq
          rw [hthumb_eq] at hp
          obtain ⟨hpl, hkeep⟩ := List.mem_filter.mp hp
          have hpk : p.1 = k := by simpa using hbeq
          have hpmem : (k, p.2) ∈ cm.thumbnails := by
            rw [← hpk]
            exact hpl
          have hpt : p.2 = t := key_inj hndT hpmem hm
          rw [hpt, hexp] at hkeep
          simp at hkeep
        simp [alookup, hfind]
      · intro hmem
        rw [hdisk_eq] at hmem
        obtain ⟨_, hkeep⟩ := List.mem_filter.mp hmem
        have hin : pathDir t.Path ∈ expiredDirs cm now :=
          List.mem_append_right _
            (List.mem_map.mpr ⟨(k, t), List.mem_filter.mpr ⟨hm, hexp⟩, rfl⟩)
        simp at hkeep
        exact hkeep hin
    · intro hfresh
      constructor
      · have hnd2 : (((cleanupStep cm now).thumbnails).map Prod.fst).Nodup := by
          rw [hthumb_eq]
          exact hndT.sublist ((List.filter_sublist _).map Prod.fst)
        have hmem2 : (k, t) ∈ (cleanupStep cm now).thumbnails := by
          rw [hthumb_eq]
          exact List.mem_filter.mpr ⟨hm, by simp [hfresh]⟩
        have hfind := find_key_of_mem hnd2 hmem2
        simp [alookup, hfind]
      · rw [hdisk_eq]
        apply List.mem_filter.mpr
        refine ⟨hdiskT (k, t) hm, ?_⟩
        have hnotin : pathDir t.Path ∉ expiredDirs cm now := by
          intro hin
          rcases List.mem_append.mp hin with hin1 | hin2
          · obtain ⟨p, hpmem, hpdir⟩ := List.mem_map.mp hin1
            obtain ⟨hpl, _⟩ := List.mem_filter.mp hpmem
            exact hcross p hpl (k, t) hm hpdir
          · obtain ⟨q, hqmem, hqdir⟩ := List.mem_map.mp hin2
            obtain ⟨hql, hqexp⟩ := List.mem_filter.mp hqmem
            have hpq : q = (k, t) := hinjT q hql (k, t) hm hqdir
            have h2 : q.2 = t := congrArg Prod.snd hpq
            rw [h2, hfresh] at hqexp
            exact absurd hqexp Bool.false_ne_true
        simp [hnotin]

/-- A concrete well-formed manager state for exercising the cleanup
theorem: one conversion 40 minutes idle, one conversion 5 minutes idle,
one thumbnail 40 minutes idle. -/
def cmWitness : CM :=
  ⟨[("d/c1", ⟨"hls_1", 0, false, none⟩), ("d/c2", ⟨"hls_2", 35, false, none⟩)],
    [("thumb_d_c1", ⟨"th_1/thumbnail.jpg", 0, false, none⟩)],
    ["hls_1", "hls_2", "th_1"], []⟩

/-- Witness for C4: at time 40, the entries idle since time 0 are gone
together with their directories, the entry accessed at time 35 survives
with its directory intact. -/
theorem cleanup_ttl_eviction_witness :
    expiredAt 40 0 = true ∧ expiredAt 40 35 = false ∧
    alookup "d/c1" (cleanupStep cmWitness 40).conversions = none ∧
    ("hls_1" ∉ (cleanupStep cmWitness 40).disk) ∧
    alookup "d/c2" (cleanupStep cmWitness 40).conversions =
      some ⟨"hls_2", 35, false, none⟩ ∧
    "hls_2" ∈ (cleanupStep cmWitness 40).disk ∧
    alookup "thumb_d_c1" (cleanupStep cmWitness 40).thumbnails = none ∧
    pathDir "th_1/thumbnail.jpg" ∉ (cleanupStep cmWitness 40).disk := by
  have h := cleanup_ttl_eviction cmWitness 40 (by decide) (by decide)
    (by decide) (by decide) (by decide) (by decide) (by decide)
  refine ⟨rfl, rfl, ?_, ?_, ?_, ?_, ?_, ?_⟩
  · exact ((h.1 "d/c1" ⟨"hls_1", 0, false, none⟩ (by decide)).1 rfl).1
  · exact ((h.1 "d/c1" ⟨"hls_1", 0, false, none⟩ (by decide)).1 rfl).2
  · exact ((h.1 "d/c2" ⟨"hls_2", 35, false, none⟩ (by decide)).2 rfl).1
  · exact ((h.1 "d/c2" ⟨"hls_2", 35, false, none⟩ (by decide)).2 rfl).2
  · exact ((h.2 "thumb_d_c1" ⟨"th_1/thumbnail.jpg", 0, false, none⟩
      (by decide)).1 rfl).1
  · exact ((h.2 "thumb_d_c1" ⟨"th_1/thumbnail.jpg", 0, false, none⟩
      (by decide)).1 rfl).2

end Douga
